import Mathlib

/-! Shallow embedding of the tagged union container variant_t from the
header_libraries repository. The embedding follows the newer implementation in
src/include/daw/daw_variant.h; the older src/daw_variant.h is consulted where
a claim cites it, and the places where the two differ are noted at the
definitions they affect. The theorems at the end of the file settle the frozen
claims C1 to C10 about this component. -/

namespace Daw

/-- Runtime failures a variant_t operation can signal: bad_variant_t_access
with its message (thrown by the ptr helper), std::bad_function_call (thrown
when the empty std::function of a default-constructed registry entry is
invoked), and a marker for the undefined behaviour of reading the raw buffer
when it does not hold a live object of the requested type (a state that is
unreachable through the public interface). -/
inductive VError where
  | badAccess (msg : String)
  | badFunctionCall
  | deadBufferRead
deriving DecidableEq, Repr

instance exceptDecEq {ε α : Type} [DecidableEq ε] [DecidableEq α] :
    DecidableEq (Except ε α) := fun a b =>
  match a, b with
  | Except.ok x, Except.ok y => decidable_of_iff (x = y) (by simp)
  | Except.error x, Except.error y => decidable_of_iff (x = y) (by simp)
  | Except.ok _, Except.error _ => isFalse (by simp)
  | Except.error _, Except.ok _ => isFalse (by simp)

/-- A std::type_index value relevant to a variant_t over n member types:
either the index of member type k (get_type_index of that type), or the index
of the local class no_type_t that impl::stored_type_t uses as its empty
sentinel (impl::stored_type_t::empty_type returns get_type_index of
no_type_t). The sentinel is itself the concrete identifier of a class type,
distinct from every member type identifier. -/
inductive TypeId (n : Nat) where
  | mem (k : Fin n)
  | noType
deriving DecidableEq, Repr

/-- The closed member type set of one variant_t instantiation: for each index
k the member value type, whether the daw traits detect both operator== and
operator< on it (has_op_eq_v and has_op_lt_v, which select between the two
op_compare overloads of generate_compare_t), those operators, and the
to_string overload that generate_to_strings_t requires of every member. -/
structure TypeSet (n : Nat) where
  Val : Fin n → Type
  hasOps : Fin n → Bool
  eqOp : (k : Fin n) → Val k → Val k → Bool
  ltOp : (k : Fin n) → Val k → Val k → Bool
  toStr : (k : Fin n) → Val k → String

variable {n : Nat}

/-- The state of one variant_t object: the discriminant m_stored_type (a
stored_type_t holding a type_index, noType when empty) and the live object, if
any, that the raw storage m_buffer currently holds. none models a buffer whose
bytes do not hold an object with active lifetime. -/
structure VState (ts : TypeSet n) where
  m_stored_type : TypeId n
  m_buffer : Option ((k : Fin n) × ts.Val k)

variable {ts : TypeSet n}

/-- variant_t::empty, via stored_type_t::empty: the discriminant holds the
sentinel identifier. -/
def VState.empty (s : VState ts) : Bool :=
  decide (s.m_stored_type = TypeId.noType)

/-- variant_t::is_same_type for member type k: the discriminant equals
get_type_index of that type. -/
def VState.is_same_type (s : VState ts) (k : Fin n) : Bool :=
  decide (s.m_stored_type = TypeId.mem k)

/-- variant_t::get and the ptr helper it calls: throws bad_variant_t_access
when the variant is empty, throws bad_variant_t_access when the active type
differs from the requested member type, and otherwise reads the buffer as the
requested type. The deadBufferRead branches mark the undefined behaviour of
reading a buffer that holds no live object of that type; states reachable
through the public interface never take them. -/
def VState.get (s : VState ts) (k : Fin n) : Except VError (ts.Val k) :=
  if s.empty then
    Except.error (VError.badAccess "Attempt to access an empty value")
  else if !s.is_same_type k then
    Except.error (VError.badAccess "Attempt to access a value of another type")
  else
    match s.m_buffer with
    | some ⟨j, v⟩ =>
        if h : j = k then Except.ok (h ▸ v) else Except.error VError.deadBufferRead
    | none => Except.error VError.deadBufferRead

/-- char_traits compare over the shared prefix (the character difference at
the first mismatch, which is what memcmp reports) followed by the length
difference, which is how std::string::compare combines its two steps. -/
def charsCompare : List Char → List Char → Int
  | [], [] => 0
  | [], _b :: bs => -(1 + (bs.length : Int))
  | _a :: as, [] => 1 + (as.length : Int)
  | a :: as, b :: bs =>
      if a = b then charsCompare as bs else (a.toNat : Int) - (b.toNat : Int)

/-- std::string::compare applied to the two strings. -/
def strCompare (a b : String) : Int :=
  charsCompare a.data b.data

/-- generate_to_strings_t::to_string_t for member k: to_string(get<T>(value)).
The error branch marks the exception that would propagate out of get; it is
never taken when the entry is invoked through variant_t::to_string, which only
dispatches to the entry of the active member type. -/
def gen_to_string (ts : TypeSet n) (k : Fin n) (value : VState ts) : String :=
  match value.get k with
  | Except.ok v => ts.toStr k v
  | Except.error _ => ""

/-- variant_t::to_string: the empty string when empty, otherwise the registry
to_string entry of the active member type applied to this variant. -/
def VState.to_string (s : VState ts) : String :=
  match s.m_stored_type with
  | TypeId.noType => ""
  | TypeId.mem k => gen_to_string ts k s

/-- generate_compare_t::op_compare for member k. The first overload, selected
when the member type has operator== and operator<, compares the two stored
values with those operators and answers 0, -1 or 1; the second overload falls
back to comparing the two to_string results with std::string::compare. -/
def op_compare (ts : TypeSet n) (k : Fin n) (lhs rhs : VState ts) : Except VError Int :=
  if ts.hasOps k then
    match lhs.get k, rhs.get k with
    | Except.ok a, Except.ok b =>
        Except.ok (if ts.eqOp k a b then 0 else if ts.ltOp k a b then -1 else 1)
    | Except.error e, _ => Except.error e
    | _, Except.error e => Except.error e
  else
    Except.ok (strCompare lhs.to_string rhs.to_string)

/-- generate_compare_t::compare_t for member k, the registry compare entry:
when both discriminants agree it dispatches to op_compare, otherwise it
compares the two to_string results with std::string::compare. -/
def compare_entry (ts : TypeSet n) (k : Fin n) (lhs rhs : VState ts) : Except VError Int :=
  if lhs.m_stored_type = rhs.m_stored_type then op_compare ts k lhs rhs
  else Except.ok (strCompare lhs.to_string rhs.to_string)

/-- generate_destruct_t::destruct_t for member k: get<T>(value).~T() ends the
lifetime of the stored object; the discriminant is left untouched. -/
def destruct_entry (ts : TypeSet n) (_k : Fin n) (value : VState ts) : VState ts :=
  { value with m_buffer := none }

/-- variant_helper_funcs_t: one registry entry. Its only members are the three
std::function fields to_string, compare and destruct; a default-constructed
entry holds empty functions, modelled by none, and no entry of any kind exists
for copying. -/
structure HelperFuncs (ts : TypeSet n) where
  to_string_fn : Option (VState ts → String)
  compare_fn : Option (VState ts → VState ts → Except VError Int)
  destruct_fn : Option (VState ts → VState ts)

/-- get_helper_funcs: the func_map built once by get_variant_helpers has one
generated entry per member type. Indexing the unordered_map with operator[] at
the sentinel identifier of an empty variant finds no entry and
default-constructs one whose std::function members are empty. -/
def get_helper_funcs (ts : TypeSet n) : TypeId n → HelperFuncs ts
  | TypeId.mem k =>
      { to_string_fn := some (gen_to_string ts k)
        compare_fn := some (compare_entry ts k)
        destruct_fn := some (destruct_entry ts k) }
  | TypeId.noType =>
      { to_string_fn := none, compare_fn := none, destruct_fn := none }

/-- variant_t::compare: look the compare entry up under the own discriminant
and invoke it. On an empty variant the lookup produces a default-constructed
entry, and invoking its empty std::function throws std::bad_function_call. -/
def VState.compare (s rhs : VState ts) : Except VError Int :=
  match (get_helper_funcs ts s.m_stored_type).compare_fn with
  | some f => f s rhs
  | none => Except.error VError.badFunctionCall

/-- The primitive steps a mutating variant_t operation performs, recorded in
order: an invocation of the registry destruct entry for a member type, the
clearing of the discriminant by stored_type_t::reset, the writing of a type
identifier into the discriminant, and the placement construction of a value of
a member type in the buffer. -/
inductive Event (n : Nat) where
  | destructCall (k : Fin n)
  | resetDiscriminant
  | setDiscriminant (t : TypeId n)
  | constructInto (k : Fin n)
deriving DecidableEq, Repr

/-- variant_t::reset: when the variant is not empty, the registry destruct
entry of the active type is invoked on it; reset_type then clears the
discriminant in either case. -/
def VState.reset (s : VState ts) : VState ts × List (Event n) :=
  match s.m_stored_type with
  | TypeId.mem k =>
      ({ destruct_entry ts k s with m_stored_type := TypeId.noType },
       [Event.destructCall k, Event.resetDiscriminant])
  | TypeId.noType =>
      ({ s with m_stored_type := TypeId.noType }, [Event.resetDiscriminant])

/-- variant_t::set_type taking the new value (the overload shared by both
source files, lines 383 to 391 of the newer header and lines 233 to 241 of
the older): call reset() unless the new type equals the active one, then write
get_type_index of the new type into the discriminant, then placement-construct
the value in the buffer - in that order. -/
def set_type (s : VState ts) (k : Fin n) (v : ts.Val k) : VState ts × List (Event n) :=
  let pre : VState ts × List (Event n) :=
    if s.is_same_type k then (s, []) else s.reset
  ({ m_stored_type := TypeId.mem k, m_buffer := some ⟨k, v⟩ },
   pre.snd ++ [Event.setDiscriminant (TypeId.mem k), Event.constructInto k])

/-- variant_t::store of the newer header: it forwards the value to set_type
and returns the variant. -/
def store (s : VState ts) (k : Fin n) (v : ts.Val k) : VState ts × List (Event n) :=
  set_type s k v

/-- The body of the variant_t destructor: when the variant is not empty, the
registry destruct entry of the active type is invoked once. -/
def destructor_events (s : VState ts) : List (Event n) :=
  match s.m_stored_type with
  | TypeId.mem k => [Event.destructCall k]
  | TypeId.noType => []

/-- The defaulted copy operations, variant_t(variant_t const&) and
operator=(variant_t const&) = default: a member-wise copy of the discriminant
and of the raw byte buffer. No registry entry is consulted - the registry has
no copy member at all - and the previous contents of the destination are
overwritten without destruction. -/
def copy_assign (_dst src : VState ts) : VState ts × List (Event n) :=
  ({ m_stored_type := src.m_stored_type, m_buffer := src.m_buffer }, [])

/-- The newer variant_t::type_index: it returns *m_stored_type, the raw
type_index held by the discriminant. For an empty variant that is the concrete
identifier of the sentinel class no_type_t, not an empty optional. -/
def type_index (s : VState ts) : TypeId n :=
  s.m_stored_type

/-- Modelled from the spec: the type_tag query as section 4.1 of the spec
words it, type_tag() giving an optional identifier that is none if the variant
is empty. This is also what the older src/daw_variant.h type_index returns
through daw::optional, whose header daw_optional.h is not among the source
files. The definition exists to be compared against type_index above. -/
def type_tag_spec (s : VState ts) : Option (Fin n) :=
  match s.m_stored_type with
  | TypeId.mem k => some k
  | TypeId.noType => none

/-- Invariants A and B of the data model, as one boolean: the buffer holds a
live object exactly when the discriminant names a member type, and then an
object of exactly that type. -/
def WF (s : VState ts) : Bool :=
  match s.m_buffer with
  | some kv => decide (s.m_stored_type = TypeId.mem kv.fst)
  | none => decide (s.m_stored_type = TypeId.noType)

/-- One public mutating call on a variant: store of a value of member type k,
or reset. -/
inductive VOp (ts : TypeSet n) where
  | storeOp (k : Fin n) (v : ts.Val k)
  | resetOp

/-- Apply one public call, discarding the event trace. -/
def applyOp (s : VState ts) : VOp ts → VState ts
  | VOp.storeOp k v => (store s k v).fst
  | VOp.resetOp => s.reset.fst

/-- A default-constructed variant: empty discriminant, no live object. -/
def emptyVariant (ts : TypeSet n) : VState ts :=
  { m_stored_type := TypeId.noType, m_buffer := none }

/-- Run a sequence of public calls on a freshly constructed variant. -/
def runOps (ts : TypeSet n) (ops : List (VOp ts)) : VState ts :=
  ops.foldl applyOp (emptyVariant ts)

/-- The member type of the most recent store in a call sequence, if any store
occurs in it. -/
def lastStoreTag (ops : List (VOp ts)) : Option (Fin n) :=
  ops.foldl
    (fun acc op =>
      match op with
      | VOp.storeOp k _ => some k
      | VOp.resetOp => acc)
    none

/-- Whether the trace contains, in order, one event satisfying each of the
given predicates: greedy subsequence matching, which finds such events exactly
when they exist. -/
def matchesSeq : List (Event n → Bool) → List (Event n) → Bool
  | [], _ => true
  | _ :: _, [] => false
  | p :: ps, e :: es => if p e then matchesSeq ps es else matchesSeq (p :: ps) es

/-- Recognizes an invocation of a registry destruct entry. -/
def isDestructEv : Event n → Bool
  | Event.destructCall _ => true
  | _ => false

/-- Recognizes a placement construction in the buffer. -/
def isConstructEv : Event n → Bool
  | Event.constructInto _ => true
  | _ => false

/-- Recognizes a write of a member type into the discriminant. -/
def isSetDiscEv : Event n → Bool
  | Event.setDiscriminant _ => true
  | _ => false

/-- Modelled from the words of claim C1: the order the claim asserts for a
type-changing store - first a destruct of the old value, later the placement
construction of the new one, and only after that the discriminant update. -/
def c1ClaimedOrder (tr : List (Event n)) : Bool :=
  matchesSeq [isDestructEv, isConstructEv, isSetDiscEv] tr

/-- The member operators form a sane order, as they do for every standard type
the repository instantiates variant_t with: operator== is symmetric, and on
values it rejects exactly one direction of operator< holds. -/
structure LawfulOps (ts : TypeSet n) : Prop where
  eq_symm : ∀ k a b, ts.eqOp k a b = ts.eqOp k b a
  lt_antisym : ∀ k a b, ts.eqOp k a b = false → ts.ltOp k a b = !ts.ltOp k b a

/-- A concrete closed type set mirroring the variant_t<int, std::string> of
the examples: member 0 behaves like int, with operator== and operator<
detected, while member 1 is rendered like a string and detects no operators,
so that comparisons on it exercise the to_string fallback. Both member value
types are Int in the model; only the capabilities and renderings differ,
which is all the dispatch machinery consults. -/
def ts2 : TypeSet 2 where
  Val := fun _ => Int
  hasOps := fun k => decide (k = 0)
  eqOp := fun _ a b => decide (a = b)
  ltOp := fun _ a b => decide (a < b)
  toStr := fun k v => if k = 0 then toString v else "s" ++ toString v

/-- A value of any member type of ts2, all of which are Int in the model. -/
def intVal (m : Int) {k : Fin 2} : ts2.Val k :=
  m

/-- A ts2 variant holding the int 5 in member type 0. -/
def vInt5 : VState ts2 :=
  (store (emptyVariant ts2) 0 (intVal 5)).fst

/-- A ts2 variant holding the int 7 in member type 0. -/
def vInt7 : VState ts2 :=
  (store (emptyVariant ts2) 0 (intVal 7)).fst

/-- A ts2 variant holding the value 5 in the stringish member type 1. -/
def vStr5 : VState ts2 :=
  (store (emptyVariant ts2) 1 (intVal 5)).fst

theorem charsCompare_cons_self (a : Char) (as bs : List Char) :
    charsCompare (a :: as) (a :: bs) = charsCompare as bs := by
  simp [charsCompare]

theorem charsCompare_cons_ne {a b : Char} (hab : a ≠ b) (as bs : List Char) :
    charsCompare (a :: as) (b :: bs) = (a.toNat : Int) - (b.toNat : Int) := by
  simp [charsCompare, hab]

theorem charsCompare_antisymm : ∀ as bs : List Char, charsCompare as bs = -(charsCompare bs as)
  | [], [] => by simp [charsCompare]
  | [], _ :: _ => by simp [charsCompare]
  | _ :: _, [] => by simp [charsCompare]
  | a :: as, b :: bs => by
      by_cases hab : a = b
      · subst hab
        simp only [charsCompare, if_pos rfl]
        exact charsCompare_antisymm as bs
      · have hba : ¬ b = a := fun hh => hab hh.symm
        simp only [charsCompare, if_neg hab, if_neg hba]
        omega

theorem strCompare_antisymm (a b : String) : strCompare a b = -(strCompare b a) :=
  charsCompare_antisymm a.data b.data

theorem charsCompare_neg_iff : ∀ as bs : List Char,
    charsCompare as bs < 0 ↔ List.Lex (· < ·) as bs
  | [], [] => by
      simp only [charsCompare]
      exact iff_of_false (by omega) (List.Lex.not_nil_right _ _)
  | [], b :: bs => by
      simp only [charsCompare]
      exact iff_of_true (by omega) List.Lex.nil
  | a :: as, [] => by
      simp only [charsCompare]
      exact iff_of_false (by omega) (List.Lex.not_nil_right _ _)
  | a :: as, b :: bs => by
      by_cases hab : a = b
      · subst hab
        rw [charsCompare_cons_self]
        rw [charsCompare_neg_iff as bs]
        constructor
        · exact fun h => List.Lex.cons h
        · intro h
          cases h with
          | cons h => exact h
          | rel h => exact absurd h (lt_irrefl a)
      · rw [charsCompare_cons_ne hab]
        constructor
        · intro h
          exact List.Lex.rel (show a.toNat < b.toNat by omega)
        · intro h
          cases h with
          | cons h2 => exact absurd rfl hab
          | rel h2 =>
              have : a.toNat < b.toNat := h2
              omega

theorem charsCompare_eq_zero_iff : ∀ as bs : List Char,
    charsCompare as bs = 0 ↔ as = bs
  | [], [] => by simp [charsCompare]
  | [], b :: bs => by
      simp only [charsCompare]
      exact iff_of_false (by omega) (by simp)
  | a :: as, [] => by
      simp only [charsCompare]
      exact iff_of_false (by omega) (by simp)
  | a :: as, b :: bs => by
      by_cases hab : a = b
      · subst hab
        rw [charsCompare_cons_self]
        simp only [List.cons.injEq, true_and]
        exact charsCompare_eq_zero_iff as bs
      · rw [charsCompare_cons_ne hab]
        simp only [List.cons.injEq]
        refine iff_of_false ?_ (by tauto)
        intro h
        have hnat : a.toNat = b.toNat := by omega
        rcases lt_trichotomy a b with hh | hh | hh
        · have : a.toNat < b.toNat := hh
          omega
        · exact hab hh
        · have : b.toNat < a.toNat := hh
          omega

theorem charsCompare_pos_iff (as bs : List Char) :
    0 < charsCompare as bs ↔ List.Lex (· < ·) bs as := by
  rw [← charsCompare_neg_iff bs as]
  have h := charsCompare_antisymm as bs
  omega

theorem get_ok_of_WF (s : VState ts) (k : Fin n) (hwf : WF s = true)
    (htag : s.m_stored_type = TypeId.mem k) :
    ∃ v, s.m_buffer = some ⟨k, v⟩ ∧ s.get k = Except.ok v := by
  unfold WF at hwf
  cases hb : s.m_buffer with
  | none =>
      rw [hb] at hwf
      simp only [decide_eq_true_eq] at hwf
      rw [hwf] at htag
      cases htag
  | some kv =>
      obtain ⟨j, v⟩ := kv
      rw [hb] at hwf
      simp only [decide_eq_true_eq] at hwf
      rw [htag] at hwf
      obtain rfl : k = j := by cases hwf; rfl
      refine ⟨v, rfl, ?_⟩
      unfold VState.get
      rw [if_neg ?_, if_neg ?_]
      · rw [hb]
        simp
      · simp [VState.is_same_type, htag]
      · simp [VState.empty, htag]

theorem compare_unfold (s t : VState ts) (j : Fin n)
    (hj : s.m_stored_type = TypeId.mem j) :
    s.compare t = compare_entry ts j s t := by
  unfold VState.compare
  rw [hj]
  rfl

theorem intDecide_eq_symm (a b : Int) : decide (a = b) = decide (b = a) := by
  simp [eq_comm]

theorem intDecide_lt_antisym (a b : Int) (h : decide (a = b) = false) :
    decide (a < b) = !decide (b < a) := by
  rw [decide_eq_false_iff_not] at h
  by_cases hlt : a < b
  · have h2 : ¬ b < a := by omega
    simp [hlt, h2]
  · have h2 : b < a := by omega
    simp [hlt, h2]

theorem ts2_lawful : LawfulOps ts2 := by
  refine ⟨fun k a b => ?_, fun k a b h => ?_⟩
  · exact intDecide_eq_symm a b
  · exact intDecide_lt_antisym a b h

theorem op_compare_ops (k : Fin n) (s t : VState ts) (hops : ts.hasOps k = true)
    (a b : ts.Val k) (ha : s.get k = Except.ok a) (hb : t.get k = Except.ok b) :
    op_compare ts k s t
      = Except.ok (if ts.eqOp k a b then 0 else if ts.ltOp k a b then -1 else 1) := by
  unfold op_compare
  rw [if_pos hops, ha, hb]

theorem op_compare_fallback (k : Fin n) (s t : VState ts) (hops : ts.hasOps k = false) :
    op_compare ts k s t = Except.ok (strCompare s.to_string t.to_string) := by
  unfold op_compare
  rw [if_neg (by simp [hops])]

theorem compare_entry_same (k : Fin n) (s t : VState ts)
    (h : s.m_stored_type = t.m_stored_type) :
    compare_entry ts k s t = op_compare ts k s t := by
  unfold compare_entry
  rw [if_pos h]

theorem compare_entry_diff (k : Fin n) (s t : VState ts)
    (h : s.m_stored_type ≠ t.m_stored_type) :
    compare_entry ts k s t = Except.ok (strCompare s.to_string t.to_string) := by
  unfold compare_entry
  rw [if_neg h]

theorem opResult_antisym (ts : TypeSet n) (hL : LawfulOps ts) (k : Fin n) (a b : ts.Val k) :
    (if ts.eqOp k b a then (0 : Int) else if ts.ltOp k b a then -1 else 1)
      = -(if ts.eqOp k a b then (0 : Int) else if ts.ltOp k a b then -1 else 1) := by
  have hsym := hL.eq_symm k a b
  cases heq : ts.eqOp k a b with
  | true =>
      rw [heq] at hsym
      simp [← hsym]
  | false =>
      rw [heq] at hsym
      have hlt := hL.lt_antisym k a b heq
      cases hba : ts.ltOp k b a with
      | true =>
          rw [hba] at hlt
          simp only [Bool.not_true] at hlt
          simp [← hsym, hba, hlt]
      | false =>
          rw [hba] at hlt
          simp only [Bool.not_false] at hlt
          simp [← hsym, hba, hlt]

theorem c8_aux : ∀ (ops : List (VOp ts)) (s : VState ts) (acc : Option (Fin n)),
    (s.m_stored_type = TypeId.noType ∨ ∃ k, acc = some k ∧ s.m_stored_type = TypeId.mem k) →
    ((ops.foldl applyOp s).m_stored_type = TypeId.noType ∨
      ∃ k,
        ops.foldl
          (fun acc2 op =>
            match op with
            | VOp.storeOp k2 _ => some k2
            | VOp.resetOp => acc2)
          acc = some k ∧
        (ops.foldl applyOp s).m_stored_type = TypeId.mem k)
  | [], _, _, h => h
  | op :: ops, s, acc, _ => by
      cases op with
      | storeOp k v =>
          apply c8_aux ops
          right
          exact ⟨k, rfl, rfl⟩
      | resetOp =>
          apply c8_aux ops
          left
          cases hst : s.m_stored_type <;> simp [applyOp, VState.reset, hst]

/-- C1 counterexample: on a concrete variant that holds member type 0, a store
of a value of the different member type 1 does not perform its steps in the
order the claim asserts. In the recorded trace the discriminant update
precedes the placement construction, so no destruct-construct-update
subsequence exists. -/
theorem c1_counterexample :
    vInt5.m_stored_type = TypeId.mem 0 ∧ vInt5.is_same_type 1 = false ∧
    c1ClaimedOrder (store vInt5 1 (intVal 5)).snd = false := by
  decide

/-- C1, amended: for every variant holding member type Tj and every store of a
value of a different member type Tk, the exact step order is - destruct the
old Tj value via the registry, clear the discriminant, update the discriminant
to Tk, and placement-construct the new value last. The discriminant update
precedes the construction, not the other way around. -/
theorem c1_store_order (ts : TypeSet n) (s : VState ts) (j k : Fin n) (v : ts.Val k)
    (hj : s.m_stored_type = TypeId.mem j) (hjk : j ≠ k) :
    (store s k v).snd =
      [Event.destructCall j, Event.resetDiscriminant,
       Event.setDiscriminant (TypeId.mem k), Event.constructInto k] := by
  have hsame : s.is_same_type k = false := by
    simp [VState.is_same_type, hj, hjk]
  simp [store, set_type, hsame, VState.reset, hj]

/-- C1 witness: the amended order theorem applied to the concrete variant
holding the int 5 while a value of member type 1 is stored. -/
theorem c1_store_order_witness :
    (vInt5.m_stored_type = TypeId.mem 0 ∧ (0 : Fin 2) ≠ 1) ∧
    (store vInt5 1 (intVal 5)).snd =
      [Event.destructCall 0, Event.resetDiscriminant,
       Event.setDiscriminant (TypeId.mem 1), Event.constructInto 1] :=
  ⟨⟨by decide, by decide⟩, c1_store_order ts2 vInt5 0 1 (intVal 5) (by decide) (by decide)⟩

/-- C2: evaluation of the code at the failing input. Storing a value of the
same member type over an existing value skips reset, so the registry destruct
entry is invoked zero times for the overwritten value: after constructing two
values in the same variant and destroying it, the trace holds two placement
constructions but only one destruct invocation - the first stored value is
never destructed. -/
theorem c2_same_type_store_leak :
    vInt5.empty = false ∧ vInt5.m_stored_type = TypeId.mem 0 ∧
    (store vInt5 0 (intVal 7)).snd.countP isDestructEv = 0 ∧
    ((store (emptyVariant ts2) 0 (intVal 5)).snd ++ (store vInt5 0 (intVal 7)).snd
        ++ destructor_events (store vInt5 0 (intVal 7)).fst).countP isConstructEv = 2 ∧
    ((store (emptyVariant ts2) 0 (intVal 5)).snd ++ (store vInt5 0 (intVal 7)).snd
        ++ destructor_events (store vInt5 0 (intVal 7)).fst).countP isDestructEv = 1 := by
  decide

/-- C4: get of member type Tk fails with the distinguished bad_variant_t_access
error exactly when the variant is empty or its active type is not Tk, and on a
well-formed variant whose active type is Tk it returns exactly the stored
value. -/
theorem c4_get_badaccess (ts : TypeSet n) (s : VState ts) (k : Fin n) (hwf : WF s = true) :
    ((∃ msg, s.get k = Except.error (VError.badAccess msg)) ↔
        (s.empty = true ∨ s.m_stored_type ≠ TypeId.mem k)) ∧
    (s.m_stored_type = TypeId.mem k →
      ∃ v, s.m_buffer = some ⟨k, v⟩ ∧ s.get k = Except.ok v) := by
  refine ⟨?_, fun htag => get_ok_of_WF s k hwf htag⟩
  by_cases hemp : s.empty = true
  · refine iff_of_true ⟨"Attempt to access an empty value", ?_⟩ (Or.inl hemp)
    unfold VState.get
    rw [if_pos hemp]
  · by_cases htag : s.m_stored_type = TypeId.mem k
    · obtain ⟨v, hv, hget⟩ := get_ok_of_WF s k hwf htag
      refine iff_of_false ?_ ?_
      · rintro ⟨msg, hmsg⟩
        rw [hget] at hmsg
        cases hmsg
      · rintro (h | h)
        · exact hemp h
        · exact h htag
    · refine iff_of_true ⟨"Attempt to access a value of another type", ?_⟩ (Or.inr htag)
      have hss : (!s.is_same_type k) = true := by
        simp [VState.is_same_type, htag]
      unfold VState.get
      rw [if_neg hemp, if_pos hss]

/-- C4 witness: the access theorem applied to the concrete variant holding the
int 5 in member type 0 while member type 1 is requested. -/
theorem c4_get_badaccess_witness :
    WF vInt5 = true ∧
    (((∃ msg, vInt5.get 1 = Except.error (VError.badAccess msg)) ↔
        (vInt5.empty = true ∨ vInt5.m_stored_type ≠ TypeId.mem 1)) ∧
     (vInt5.m_stored_type = TypeId.mem 1 →
        ∃ v, vInt5.m_buffer = some ⟨1, v⟩ ∧ vInt5.get 1 = Except.ok v)) :=
  ⟨by decide, c4_get_badaccess ts2 vInt5 1 (by decide)⟩

/-- C5: after store of a value v of member type Tk, regardless of the previous
state, the variant is non-empty, its discriminant is the identifier of Tk, and
get of Tk returns exactly v. -/
theorem c5_store_roundtrip (ts : TypeSet n) (s : VState ts) (k : Fin n) (v : ts.Val k) :
    (store s k v).fst.empty = false ∧
    (store s k v).fst.m_stored_type = TypeId.mem k ∧
    (store s k v).fst.get k = Except.ok v := by
  refine ⟨?_, rfl, ?_⟩
  · simp [store, set_type, VState.empty]
  · show VState.get ⟨TypeId.mem k, some ⟨k, v⟩⟩ k = Except.ok v
    unfold VState.get
    rw [if_neg (by simp [VState.empty]), if_neg (by simp [VState.is_same_type])]
    simp

/-- C3 counterexample: compare on two empty variants of the same closed type
set does not succeed. The registry lookup under the sentinel identifier yields
a default-constructed entry and invoking its empty std::function throws
std::bad_function_call, so no value in the set -1, 0, 1 is returned. -/
theorem c3_counterexample :
    VState.compare (emptyVariant ts2) (emptyVariant ts2)
      = Except.error VError.badFunctionCall := by
  decide

/-- C3, amended: for two variants of the same closed type set whose member
operators form a sane order, compare succeeds whenever the left operand is
non-empty, returning some integer z (not necessarily in the set -1, 0, 1,
since the to_string fallback passes the std::string::compare value through),
and when both operands are non-empty the two directions return exact
negations of one another. Compare with an empty left operand throws instead. -/
theorem c3_compare_amended (ts : TypeSet n) (hL : LawfulOps ts) (s t : VState ts)
    (hwfs : WF s = true) (hwft : WF t = true) (hs : s.empty = false) :
    ∃ z : Int, s.compare t = Except.ok z ∧
      (t.empty = false → t.compare s = Except.ok (-z)) := by
  obtain ⟨j, hj⟩ : ∃ j, s.m_stored_type = TypeId.mem j := by
    cases h : s.m_stored_type with
    | mem j => exact ⟨j, rfl⟩
    | noType => simp [VState.empty, h] at hs
  rw [compare_unfold s t j hj]
  cases ht : t.m_stored_type with
  | noType =>
      rw [compare_entry_diff j s t (by rw [hj, ht]; exact fun hh => TypeId.noConfusion hh)]
      refine ⟨strCompare s.to_string t.to_string, rfl, fun hte => ?_⟩
      simp [VState.empty, ht] at hte
  | mem j2 =>
      by_cases hjj : s.m_stored_type = t.m_stored_type
      · have hj2 : t.m_stored_type = TypeId.mem j := by rw [← hjj, hj]
        rw [compare_entry_same j s t hjj]
        cases hops : ts.hasOps j with
        | true =>
            obtain ⟨a, _, ha⟩ := get_ok_of_WF s j hwfs hj
            obtain ⟨b, _, hb⟩ := get_ok_of_WF t j hwft hj2
            rw [op_compare_ops j s t hops a b ha hb]
            refine ⟨_, rfl, fun _ => ?_⟩
            rw [compare_unfold t s j hj2, compare_entry_same j t s hjj.symm,
                op_compare_ops j t s hops b a hb ha]
            rw [opResult_antisym ts hL j a b]
        | false =>
            rw [op_compare_fallback j s t hops]
            refine ⟨_, rfl, fun _ => ?_⟩
            rw [compare_unfold t s j hj2, compare_entry_same j t s hjj.symm,
                op_compare_fallback j t s hops]
            rw [strCompare_antisymm t.to_string s.to_string]
      · rw [compare_entry_diff j s t hjj]
        refine ⟨_, rfl, fun _ => ?_⟩
        rw [compare_unfold t s j2 ht, compare_entry_diff j2 t s (fun hh => hjj hh.symm)]
        rw [strCompare_antisymm t.to_string s.to_string]

/-- C3 witness: the amended comparison theorem applied to a concrete int
variant and a concrete stringish variant of the same closed type set. -/
theorem c3_compare_amended_witness :
    (WF vInt5 = true ∧ WF vStr5 = true ∧ vInt5.empty = false) ∧
    (∃ z : Int, vInt5.compare vStr5 = Except.ok z ∧
      (vStr5.empty = false → vStr5.compare vInt5 = Except.ok (-z))) :=
  ⟨⟨by decide, by decide, by decide⟩,
   c3_compare_amended ts2 ts2_lawful vInt5 vStr5 (by decide) (by decide) (by decide)⟩

/-- C6 counterexample: for two empty variants the claim would have compare
delegate and, absent member operators, return the comparison of the two
to_string results (which is ok 0). The code instead fails: the registry lookup
under the sentinel identifier produces an entry whose std::function is empty
and invoking it throws. -/
theorem c6_counterexample :
    VState.compare (emptyVariant ts2) (emptyVariant ts2)
      ≠ Except.ok (strCompare (VState.to_string (emptyVariant ts2))
                              (VState.to_string (emptyVariant ts2))) := by
  decide

/-- C6, amended: for two variants with the same non-empty active member type
Tk, compare delegates to the operator== and operator< of Tk when the traits
detect both (returning 0, -1 or 1 by those operators) and otherwise falls back
to comparing the two sides to_string results with std::string::compare. When
both variants are empty, compare does not delegate at all - it throws
std::bad_function_call. -/
theorem c6_same_type_compare (ts : TypeSet n) (s t : VState ts) (k : Fin n)
    (hs : s.m_stored_type = TypeId.mem k) (ht : t.m_stored_type = TypeId.mem k)
    (hwfs : WF s = true) (hwft : WF t = true) :
    (ts.hasOps k = true →
      ∃ a b, s.get k = Except.ok a ∧ t.get k = Except.ok b ∧
        s.compare t
          = Except.ok (if ts.eqOp k a b then 0 else if ts.ltOp k a b then -1 else 1)) ∧
    (ts.hasOps k = false →
      s.compare t = Except.ok (strCompare s.to_string t.to_string)) := by
  have hsame : s.m_stored_type = t.m_stored_type := by rw [hs, ht]
  constructor
  · intro hops
    obtain ⟨a, _, ha⟩ := get_ok_of_WF s k hwfs hs
    obtain ⟨b, _, hb⟩ := get_ok_of_WF t k hwft ht
    refine ⟨a, b, ha, hb, ?_⟩
    rw [compare_unfold s t k hs, compare_entry_same k s t hsame,
        op_compare_ops k s t hops a b ha hb]
  · intro hops
    rw [compare_unfold s t k hs, compare_entry_same k s t hsame,
        op_compare_fallback k s t hops]

/-- C6 witness: the amended same-type comparison theorem applied to two
concrete int variants holding 5 and 7. -/
theorem c6_same_type_compare_witness :
    (vInt5.m_stored_type = TypeId.mem 0 ∧ vInt7.m_stored_type = TypeId.mem 0 ∧
     WF vInt5 = true ∧ WF vInt7 = true) ∧
    ((ts2.hasOps 0 = true →
      ∃ a b, vInt5.get 0 = Except.ok a ∧ vInt7.get 0 = Except.ok b ∧
        vInt5.compare vInt7
          = Except.ok (if ts2.eqOp 0 a b then 0 else if ts2.ltOp 0 a b then -1 else 1)) ∧
     (ts2.hasOps 0 = false →
      vInt5.compare vInt7 = Except.ok (strCompare vInt5.to_string vInt7.to_string))) :=
  ⟨⟨by decide, by decide, by decide, by decide⟩,
   c6_same_type_compare ts2 vInt5 vInt7 0 (by decide) (by decide) (by decide) (by decide)⟩

/-- C7: for two variants whose active member types differ, compare returns
exactly the std::string::compare result of the two to_string renderings, and
that result orders the two renderings lexicographically - it is negative,
zero, or positive exactly when the left rendering is lexicographically below,
equal to, or above the right one. -/
theorem c7_cross_type_compare (ts : TypeSet n) (s t : VState ts) (j k : Fin n)
    (hs : s.m_stored_type = TypeId.mem j) (ht : t.m_stored_type = TypeId.mem k)
    (hjk : j ≠ k) :
    s.compare t = Except.ok (strCompare s.to_string t.to_string) ∧
    (strCompare s.to_string t.to_string < 0 ↔
      List.Lex (· < ·) s.to_string.data t.to_string.data) ∧
    (strCompare s.to_string t.to_string = 0 ↔ s.to_string = t.to_string) ∧
    (0 < strCompare s.to_string t.to_string ↔
      List.Lex (· < ·) t.to_string.data s.to_string.data) := by
  have hdiff : s.m_stored_type ≠ t.m_stored_type := by
    rw [hs, ht]
    intro hh
    injection hh with hh2
    exact hjk hh2
  refine ⟨?_, charsCompare_neg_iff _ _, ?_, charsCompare_pos_iff _ _⟩
  · rw [compare_unfold s t j hs, compare_entry_diff j s t hdiff]
  · rw [strCompare, charsCompare_eq_zero_iff]
    constructor
    · intro h
      exact String.ext h
    · intro h
      rw [h]

/-- C7 witness: the cross-type comparison theorem applied to the concrete int
variant holding 5 and the concrete stringish variant holding 5. -/
theorem c7_cross_type_compare_witness :
    (vInt5.m_stored_type = TypeId.mem 0 ∧ vStr5.m_stored_type = TypeId.mem 1 ∧
     (0 : Fin 2) ≠ 1) ∧
    (vInt5.compare vStr5 = Except.ok (strCompare vInt5.to_string vStr5.to_string) ∧
     (strCompare vInt5.to_string vStr5.to_string < 0 ↔
       List.Lex (· < ·) vInt5.to_string.data vStr5.to_string.data) ∧
     (strCompare vInt5.to_string vStr5.to_string = 0 ↔
       vInt5.to_string = vStr5.to_string) ∧
     (0 < strCompare vInt5.to_string vStr5.to_string ↔
       List.Lex (· < ·) vStr5.to_string.data vInt5.to_string.data)) :=
  ⟨⟨by decide, by decide, by decide⟩,
   c7_cross_type_compare ts2 vInt5 vStr5 0 1 (by decide) (by decide) (by decide)⟩

/-- C8: for every sequence of store and reset calls on a freshly constructed
variant, exactly one of the following holds at the end: the variant is empty,
or its discriminant equals the member type of the most recent store - never
both and never neither. -/
theorem c8_mutual_exclusion (ts : TypeSet n) (ops : List (VOp ts)) :
    ((runOps ts ops).empty = true ∧
      ¬ ∃ k, lastStoreTag ops = some k ∧ (runOps ts ops).m_stored_type = TypeId.mem k) ∨
    ((∃ k, lastStoreTag ops = some k ∧ (runOps ts ops).m_stored_type = TypeId.mem k) ∧
      (runOps ts ops).empty = false) := by
  have h := c8_aux ops (emptyVariant ts) none (Or.inl rfl)
  unfold runOps lastStoreTag
  rcases h with h | h
  · left
    refine ⟨by simp [VState.empty, h], ?_⟩
    rintro ⟨k, _, htag⟩
    rw [h] at htag
    cases htag
  · right
    obtain ⟨k, hacc, htag⟩ := h
    exact ⟨⟨k, hacc, htag⟩, by simp [VState.empty, htag]⟩

/-- C9 counterexample: on an empty variant the newer type_index query returns
the concrete type identifier of the sentinel class no_type_t - some concrete
type identifier, distinct from every member identifier - and not an empty
optional; the optional query that the claim and the older implementation
describe returns none there instead. -/
theorem c9_counterexample :
    (emptyVariant ts2).empty = true ∧
    type_index (emptyVariant ts2) = TypeId.noType ∧
    (∀ k : Fin 2, type_index (emptyVariant ts2) ≠ TypeId.mem k) ∧
    type_tag_spec (emptyVariant ts2) = none := by
  decide

/-- C9, amended: the newer type_index returns the identifier of the active
member type when the variant holds a value; when the variant is empty it
returns the concrete sentinel identifier of the internal class no_type_t
rather than an empty optional. The optional query of the spec wording (and of
the older implementation) corresponds to it by mapping the sentinel to none
and each member identifier to itself. -/
theorem c9_type_index_amended (ts : TypeSet n) (s : VState ts) :
    (type_index s = TypeId.noType ↔ s.empty = true) ∧
    (∀ k, type_index s = TypeId.mem k ↔ s.m_stored_type = TypeId.mem k) ∧
    (type_tag_spec s = none ↔ s.empty = true) ∧
    (∀ k, type_tag_spec s = some k ↔ type_index s = TypeId.mem k) := by
  unfold type_index type_tag_spec VState.empty
  cases h : s.m_stored_type <;> simp [h]

/-- C10: the defaulted copy operations are member-wise copies of the
discriminant and the raw buffer: the copy performs no registry call of any
kind, the destination afterwards reports the same active type and holds the
identical buffer contents as the source, get on the copy yields exactly the
stored representation of the source, and destroying either object invokes the
destruct entry of the active member type once on that object itself. -/
theorem c10_copy_defaulted (ts : TypeSet n) (b a : VState ts) (k : Fin n)
    (h : a.m_stored_type = TypeId.mem k) :
    (copy_assign b a).snd = [] ∧
    (copy_assign b a).fst.m_stored_type = a.m_stored_type ∧
    (copy_assign b a).fst.m_buffer = a.m_buffer ∧
    destructor_events (copy_assign b a).fst = [Event.destructCall k] ∧
    destructor_events a = [Event.destructCall k] ∧
    (∀ v : ts.Val k, a.m_buffer = some ⟨k, v⟩ →
      (copy_assign b a).fst.get k = Except.ok v) := by
  refine ⟨rfl, rfl, rfl, ?_, ?_, ?_⟩
  · simp [destructor_events, copy_assign, h]
  · simp [destructor_events, h]
  · intro v hv
    unfold copy_assign VState.get
    rw [if_neg (by simp [VState.empty, h]), if_neg (by simp [VState.is_same_type, h])]
    simp [hv]

/-- C10 witness: the copy theorem applied to two concrete variants, the
destination holding the int 7 and the source holding the int 5. -/
theorem c10_copy_defaulted_witness :
    vInt5.m_stored_type = TypeId.mem 0 ∧
    ((copy_assign vInt7 vInt5).snd = [] ∧
     (copy_assign vInt7 vInt5).fst.m_stored_type = vInt5.m_stored_type ∧
     (copy_assign vInt7 vInt5).fst.m_buffer = vInt5.m_buffer ∧
     destructor_events (copy_assign vInt7 vInt5).fst = [Event.destructCall 0] ∧
     destructor_events vInt5 = [Event.destructCall 0] ∧
     (∀ v : ts2.Val 0, vInt5.m_buffer = some ⟨0, v⟩ →
       (copy_assign vInt7 vInt5).fst.get 0 = Except.ok v)) :=
  ⟨by decide, c10_copy_defaulted ts2 vInt7 vInt5 0 (by decide)⟩

end Daw
